import Mathlib

unseal Rat.add Rat.mul Rat.sub Rat.inv Rat.ofScientific

/-!
Verification development for the `scplot` plotting module (`scplot/plot.py`).

The module consists of six stateless adapter functions (`violin`, `heatmap`,
`scatter`, `dotplot`, `scatter_matrix`, `embedding`) that read an annotated
matrix (an AnnData-like object) and assemble tabular intermediates for an
external renderer.  This file gives a shallow embedding of the data model and
of each function's observable data flow, and proves (or refutes) the frozen
specification claims about them.

Modelling conventions:
* Python floats are modelled by `ℚ` (exact arithmetic; IEEE rounding is out of
  scope for all claims considered here).
* A pandas column is a `Column`: a numeric column of rationals, a categorical
  column of strings (`cat`), or a plain-text column of strings (`text`).
  `astype(str)` maps any column to a `text` column.
* A pandas `DataFrame` is an ordered association list of named columns;
  `df[k] = v` is `setCol` (overwrite in place, else append), `df[k]` is
  `getCol`.  Assignment of one frame variable to another (`df = adata.obs`)
  aliases, which the violin model reproduces by returning the updated
  `AnnData` state alongside the plots.
* `np.interp(v, (xlo, xhi), (ylo, yhi))` is `interp` (linear interpolation
  clamped outside the source interval, as numpy does for increasing `xp`).
* `np.arange(start, stop, step)` is `arange` (length `⌈(stop-start)/step⌉`).
* Exceptions are modelled by `Except String`; the raw-data and
  not-yet-implemented errors carry the exact message of the source, lookups
  that pandas/anndata would reject raise a `KeyError:`-prefixed message.
* Renderer-side behaviour (colors, layout, label text formatting) is outside
  the module and is not modelled; what the module hands to the renderer
  (columns, channel assignments such as `c=`/`by=`/`colorbar=`, pixel sizes,
  legend ticks) is modelled.
-/

/-- A pandas column: numeric (float) values, categorical values, or plain
text values.  Categorical columns are modelled by their value sequence; this
mirrors a categorical whose categories are exactly the observed values. -/
inductive Column where
  | numeric (vals : List ℚ)
  | cat (vals : List String)
  | text (vals : List String)
  deriving DecidableEq, Repr

/-- `pd.api.types.is_numeric_dtype` on a column. -/
def Column.isNumeric : Column → Bool
  | .numeric _ => true
  | _ => false

/-- `str(col.dtype) == 'category'` on a column. -/
def Column.isCat : Column → Bool
  | .cat _ => true
  | _ => false

/-- `col.astype(str)`: convert any column to a plain text column. -/
def Column.astypeStr : Column → Column
  | .numeric vs => .text (vs.map toString)
  | .cat vs => .text vs
  | .text vs => .text vs

/-- Number of entries of a column. -/
def Column.size : Column → Nat
  | .numeric vs => vs.length
  | .cat vs => vs.length
  | .text vs => vs.length

/-- A value usable as a pandas group label (group keys of `groupby`):
either a string (from a categorical/text column) or a number. -/
inductive GLabel where
  | str (s : String)
  | num (q : ℚ)
  deriving DecidableEq, Repr

/-- The entries of a column viewed as group labels. -/
def Column.valsAsLabels : Column → List GLabel
  | .numeric vs => vs.map GLabel.num
  | .cat vs => vs.map GLabel.str
  | .text vs => vs.map GLabel.str

/-- Lexicographic comparison of strings by code point, the order pandas uses
when sorting string group keys. -/
def charListLe : List Char → List Char → Bool
  | [], _ => true
  | _ :: _, [] => false
  | a :: as, b :: bs =>
    if a.val < b.val then true
    else if b.val < a.val then false
    else charListLe as bs

/-- Order on group labels (homogeneous columns never mix the two shapes). -/
def GLabel.le : GLabel → GLabel → Bool
  | .str s, .str t => charListLe s.data t.data
  | .num p, .num q => decide (p ≤ q)
  | .str _, .num _ => true
  | .num _, .str _ => false

/-- The sorted distinct group keys of a label column, as `groupby` orders
its groups. -/
def sortedDistinct (l : List GLabel) : List GLabel :=
  List.insertionSort (fun a b => GLabel.le a b = true) l.dedup

/-- A matrix with named variable columns: the `.X`/`.var_names` part of an
annotated matrix, offered both by `adata` itself and by `adata.raw`. -/
structure VarView where
  var_names : List String
  X : List (List ℚ)
  deriving DecidableEq, Repr

/-- The annotated matrix: primary matrix (the inherited `VarView`), the
observation metadata table `obs`, the optional raw alternate, and the named
embedding coordinate arrays `obsm`. -/
structure AnnData extends VarView where
  obs : List (String × Column)
  raw : Option VarView
  obsm : List (String × List (List ℚ))
  deriving DecidableEq, Repr

/-- A pandas DataFrame: an ordered association list of named columns. -/
abbrev DataFrame := List (String × Column)

/-- `df[name]`: look up a column. -/
def getCol (df : DataFrame) (name : String) : Option Column :=
  match df.find? (fun p => decide (p.1 = name)) with
  | some p => some p.2
  | none => none

/-- `df[name] = c`: overwrite the column in place when present, else append
it at the end. -/
def setCol (df : DataFrame) (name : String) (c : Column) : DataFrame :=
  if df.any (fun p => decide (p.1 = name)) then
    df.map (fun p => if p.1 = name then (name, c) else p)
  else df ++ [(name, c)]

/-- Raw-view resolution, the prologue shared verbatim by all six functions:
```
adata_raw = adata
if use_raw or (use_raw is None and adata.raw is not None):
    if adata.raw is None:
        raise ValueError('Raw data not found')
    adata_raw = adata.raw
```
-/
def resolveRaw (adata : AnnData) (use_raw : Option Bool) : Except String VarView :=
  if use_raw = some true ∨ (use_raw = none ∧ adata.raw.isSome) then
    match adata.raw with
    | none => .error "Raw data not found"
    | some r => .ok r
  else .ok adata.toVarView

/-- `adata_raw[:, key].X` densified to a single column (unknown variable
names yield the zero column; the claims only use valid names). -/
def VarView.varColumn (m : VarView) (key : String) : List ℚ :=
  m.X.map (fun row => row.getD (m.var_names.indexOf key) 0)

/-- `adata_raw[:, keys].X` densified: the requested variable columns, in key
order, row by row. -/
def VarView.subMatrix (m : VarView) (keys : List String) : List (List ℚ) :=
  m.X.map (fun row => keys.map (fun k => row.getD (m.var_names.indexOf k) 0))

/-- The dual field lookup used by `scatter`, `scatter_matrix` and
`embedding`: a key naming a variable of the resolved matrix is extracted as
a dense numeric column, otherwise it is read from `adata.obs` as-is. -/
def lookupKey (adata : AnnData) (m : VarView) (key : String) : Except String Column :=
  if key ∈ m.var_names then .ok (.numeric (m.varColumn key))
  else
    match getCol adata.obs key with
    | some c => .ok c
    | none => .error ("KeyError: " ++ key)

/-- The `for key in keys: df[key] = ...` assembly loop of `scatter`,
`scatter_matrix` and `embedding`. -/
def buildDf (adata : AnnData) (m : VarView) : List String → DataFrame → Except String DataFrame
  | [], df => .ok df
  | k :: rest, df =>
    match lookupKey adata m k with
    | .error e => .error e
    | .ok c => buildDf adata m rest (setCol df k c)

/-- `series.min()` (0 on the empty column, which no claim exercises). -/
def qmin : List ℚ → ℚ
  | [] => 0
  | a :: t => t.foldl min a

/-- `series.max()` (0 on the empty column, which no claim exercises). -/
def qmax : List ℚ → ℚ
  | [] => 0
  | a :: t => t.foldl max a

/-- `np.mean` of a list. -/
def qmean (l : List ℚ) : ℚ := l.sum / (l.length : ℚ)

/-- `non_zero(g) = np.count_nonzero(g) / g.shape[0]` from `dotplot`. -/
def nonZeroFrac (l : List ℚ) : ℚ :=
  ((l.countP (fun v => decide (v ≠ 0)) : ℕ) : ℚ) / (l.length : ℚ)

/-- `np.interp(v, (xlo, xhi), (ylo, yhi))`: linear interpolation, constant
outside the source interval. -/
def interp (v xlo xhi ylo yhi : ℚ) : ℚ :=
  if v ≤ xlo then ylo
  else if xhi ≤ v then yhi
  else ylo + (v - xlo) * (yhi - ylo) / (xhi - xlo)

/-- `np.arange(start, stop, step)` for positive `step`. -/
def arange (start stop step : ℚ) : List ℚ :=
  (List.range (⌈(stop - start) / step⌉).toNat).map (fun n : ℕ => start + (n : ℚ) * step)

/-- The elements at even positions of a list (the `i % 2 == 0` selection
`dotplot` applies to the aggregated columns). -/
def evens {α : Type} : List α → List α
  | [] => []
  | [a] => [a]
  | a :: _ :: rest => a :: evens rest

/-- The elements at odd positions of a list. -/
def odds {α : Type} : List α → List α
  | [] => []
  | [_] => []
  | _ :: b :: rest => b :: odds rest

/-- The data content of the `__size_legend__` overlay: the tick values and
the marker pixel size of each tick (`np.interp` with the same ranges as the
main plot).  The text labels are produced by Python format strings and
belong to the renderer side; they are not modelled. -/
structure SizeLegend where
  ticks : List ℚ
  tickPixels : List ℚ
  deriving DecidableEq, Repr

/-- `__size_legend__(size_min, size_max, dot_min, dot_max, _, size_ticks)`. -/
def size_legend (size_min size_max dot_min dot_max : ℚ) (size_ticks : List ℚ) : SizeLegend :=
  { ticks := size_ticks
    tickPixels := size_ticks.map (fun t => interp t size_min size_max dot_min dot_max) }

/-- One violin sub-plot: the key plotted, the grouping column handed to the
renderer (`violin_color=by`), and the frame it plots from. -/
structure ViolinPlot where
  key : String
  byCol : Option Column
  df : DataFrame
  deriving DecidableEq, Repr

/-- The frame one violin iteration plots from, and whether it aliases
`adata.obs`: when the key is a variable name a fresh two-column frame is
built (`false`); otherwise `df = adata.obs` aliases the metadata table
itself, not a copy (`true`). -/
def violinBuildDf (adata : AnnData) (araw : VarView) (byKey : Option String)
    (key : String) : Except String (DataFrame × Bool) :=
  if key ∈ araw.var_names then
    let base : DataFrame := [(key, Column.numeric (araw.varColumn key))]
    match byKey with
    | some b =>
      match getCol adata.obs b with
      | some cb => .ok (setCol base b cb, false)
      | none => .error ("KeyError: " ++ b)
    | none => .ok (base, false)
  else .ok (adata.obs, true)

/-- The categorical-to-string conversion of violin's `by` column
(`df[by] = df[by].astype(str)` when the dtype is categorical) followed by
the plot call.  When `df` aliases `adata.obs` the conversion writes through
to the metadata table, hence the returned `AnnData` state. -/
def violinConvert (adata : AnnData) (key : String) (byKey : Option String)
    (df : DataFrame) (aliased : Bool) : Except String (ViolinPlot × AnnData) :=
  match byKey with
  | none => .ok ({ key := key, byCol := none, df := df }, adata)
  | some b =>
    match getCol df b with
    | none => .error ("KeyError: " ++ b)
    | some cb =>
      if cb.isCat then
        let df2 := setCol df b cb.astypeStr
        let adata2 := if aliased then { adata with obs := df2 } else adata
        .ok ({ key := key, byCol := getCol df2 b, df := df2 }, adata2)
      else .ok ({ key := key, byCol := some cb, df := df }, adata)

/-- One iteration of violin's `for key in keys` loop. -/
def violinKeyStep (adata : AnnData) (araw : VarView) (byKey : Option String)
    (key : String) : Except String (ViolinPlot × AnnData) :=
  match violinBuildDf adata araw byKey key with
  | .error e => .error e
  | .ok (df, aliased) => violinConvert adata key byKey df aliased

/-- Violin's key loop, threading the (possibly mutated) `AnnData` state. -/
def violinLoop (araw : VarView) (byKey : Option String) :
    List String → AnnData → Except String (List ViolinPlot × AnnData)
  | [], adata => .ok ([], adata)
  | key :: rest, adata =>
    match violinKeyStep adata araw byKey key with
    | .error e => .error e
    | .ok (p, adata2) =>
      match violinLoop araw byKey rest adata2 with
      | .error e => .error e
      | .ok (ps, adata3) => .ok (p :: ps, adata3)

/-- `violin(adata, keys, by=..., use_raw=...)`.  Styling keywords are
forwarded verbatim to the renderer and not modelled.  The result is the list
of sub-plots together with the post-call `AnnData` state. -/
def violin (adata : AnnData) (keys : List String) (byKey : Option String)
    (use_raw : Option Bool) : Except String (List ViolinPlot × AnnData) :=
  match resolveRaw adata use_raw with
  | .error e => .error e
  | .ok araw => violinLoop araw byKey keys adata

/-- The long-format table assembled by `heatmap` (concatenation of one block
per key, each holding the densified variable column, the repeated feature
name and the grouping values).  The reduction happens inside the renderer. -/
structure HeatmapData where
  value : List ℚ
  feature : List String
  groups : List GLabel
  deriving DecidableEq, Repr

/-- `heatmap(adata, keys, by, use_raw=...)`. -/
def heatmap (adata : AnnData) (keys : List String) (byKey : String)
    (use_raw : Option Bool) : Except String HeatmapData :=
  match resolveRaw adata use_raw with
  | .error e => .error e
  | .ok araw =>
    match getCol adata.obs byKey with
    | none => .error ("KeyError: " ++ byKey)
    | some byCol =>
      .ok { value := (keys.map (fun k => araw.varColumn k)).flatten
            feature := (keys.map (fun k => List.replicate araw.X.length k)).flatten
            groups := (keys.map (fun _ => byCol.valsAsLabels)).flatten }

/-- The keys extracted by `scatter`: `[x, y]`, then the color key, then the
size key when sizing by a field. -/
def scatterKeys (x y : String) (color : Option String) (size : Option (String ⊕ ℚ)) :
    List String :=
  [x, y] ++ color.toList ++ (match size with | some (Sum.inl s) => [s] | _ => [])

/-- Everything `scatter` hands to the renderer: the assembled frame, the
color channel assignment (`c=`/`by=`/`colorbar=`), and when sizing by a
field the extracted size values, their range, the computed pixel sizes and
the size legend. -/
structure ScatterResult where
  df : DataFrame
  c : Option String
  byKey : Option String
  colorbar : Bool
  sizeVals : List ℚ
  pixels : List ℚ
  sizeMin : ℚ
  sizeMax : ℚ
  legend : Option SizeLegend
  fixedSize : Option ℚ
  deriving DecidableEq, Repr

/-- The color channel assignment of `scatter`: a numeric color column is
passed as `c=color` with a color-bar, a non-numeric one as `by=color`.
Returns `(c, by, colorbar)`. -/
def scatterColorOpts (df : DataFrame) (color : Option String) :
    Option String × Option String × Bool :=
  match color with
  | none => (none, none, false)
  | some col =>
    match getCol df col with
    | some cc => if cc.isNumeric then (some col, none, true) else (none, some col, false)
    | none => (none, some col, false)

/-- The body of `scatter` after raw-view resolution and frame assembly. -/
def scatterCore (df : DataFrame) (color : Option String)
    (size : Option (String ⊕ ℚ)) (dot_min dot_max : ℚ) : Except String ScatterResult :=
  let cbn := scatterColorOpts df color
  match size with
  | some (Sum.inl s) =>
    match getCol df s with
    | some (.numeric svals) =>
      let smin := qmin svals
      let smax := qmax svals
      let pixels := svals.map (fun v => interp v smin smax dot_min dot_max)
      .ok { df := setCol df "pixels" (.numeric pixels)
            c := cbn.1
            byKey := cbn.2.1
            colorbar := cbn.2.2
            sizeVals := svals
            pixels := pixels
            sizeMin := smin
            sizeMax := smax
            legend := some (size_legend smin smax dot_min dot_max
              [smin, (smin + smax) / 2, smax])
            fixedSize := none }
    | _ => .error ("size key is not numeric: " ++ s)
  | some (Sum.inr px) =>
    .ok { df := df, c := cbn.1, byKey := cbn.2.1, colorbar := cbn.2.2
          sizeVals := [], pixels := [], sizeMin := 0, sizeMax := 0
          legend := none, fixedSize := some px }
  | none =>
    .ok { df := df, c := cbn.1, byKey := cbn.2.1, colorbar := cbn.2.2
          sizeVals := [], pixels := [], sizeMin := 0, sizeMax := 0
          legend := none, fixedSize := none }

/-- `scatter(adata, x, y, color=..., size=..., dot_min=..., dot_max=...,
use_raw=...)`. -/
def scatter (adata : AnnData) (x y : String) (color : Option String)
    (size : Option (String ⊕ ℚ)) (dot_min dot_max : ℚ)
    (use_raw : Option Bool) : Except String ScatterResult :=
  match resolveRaw adata use_raw with
  | .error e => .error e
  | .ok araw =>
    match buildDf adata araw (scatterKeys x y color size) [] with
    | .error e => .error e
    | .ok df => scatterCore df color size dot_min dot_max

/-- The step of dotplot's size legend, selected from `size_range =
fraction_max - fraction_min` exactly as the source's `if` chain does. -/
def size_legend_step (size_range : ℚ) : ℚ :=
  if 0.3 < size_range ∧ size_range ≤ 0.6 then 0.1
  else if size_range ≤ 0.3 then 0.05
  else 0.2

/-- For each sorted distinct group key, the row indices belonging to it
(`groupby` group membership). -/
def groupIndices (labels : List GLabel) : List (List Nat) :=
  (sortedDistinct labels).map (fun g =>
    (List.range labels.length).filter (fun r => decide (labels.getD r (.str "") = g)))

/-- The entries of extracted column `i` restricted to the rows `idxs` (one
(variable, group) cell's data). -/
def colVals (Xsub : List (List ℚ)) (idxs : List Nat) (i : Nat) : List ℚ :=
  idxs.map (fun r => (Xsub.getD r []).getD i 0)

/-- One row of `df.groupby(by).aggregate([reduce_function, non_zero])`: for
each key column, in order, the reduction value then the non-zero fraction —
the interleaved column layout the source then splits by index parity. -/
def aggRow (Xsub : List (List ℚ)) (reduceF : List ℚ → ℚ) (k : Nat) (idxs : List Nat) :
    List ℚ :=
  (List.range k).flatMap (fun i => [reduceF (colVals Xsub idxs i), nonZeroFrac (colVals Xsub idxs i)])

/-- Everything `dotplot` computes for the renderer: the flattened cell grid
(coordinates, summary value, fraction, pixel size), the resolved fraction
range, and the size legend data. -/
structure DotplotResult where
  numKeys : Nat
  groups : List GLabel
  xs : List Nat
  ys : List Nat
  summary : List ℚ
  fraction : List ℚ
  pixels : List ℚ
  fractionMin : ℚ
  fractionMax : ℚ
  legendStep : ℚ
  sizeTicks : List ℚ
  legend : SizeLegend
  deriving DecidableEq, Repr

/-- The body of `dotplot` after raw-view resolution and the grouping-column
lookup. -/
def dotplotCore (araw : VarView) (byCol : Column) (keys : List String)
    (reduceF : List ℚ → ℚ) (fraction_min : ℚ) (fraction_max : Option ℚ)
    (dot_min dot_max : ℚ) : DotplotResult :=
  let Xsub := araw.subMatrix keys
  let labels := byCol.valsAsLabels
  let glabels := sortedDistinct labels
  let gidx := groupIndices labels
  let k := keys.length
  let meanDf := gidx.map (fun idxs => evens (aggRow Xsub reduceF k idxs))
  let fracDf := gidx.map (fun idxs => odds (aggRow Xsub reduceF k idxs))
  let fraction := fracDf.flatten
  let fmax := fraction_max.getD (qmax fraction)
  let size := fraction.map (fun f => interp f fraction_min fmax dot_min dot_max)
  let step := size_legend_step (fmax - fraction_min)
  let ticks := arange
    (if fraction_min > 0 ∨ fraction_min > 0 then fraction_min else fraction_min + step)
    (fmax + step) step
  { numKeys := k
    groups := glabels
    xs := (glabels.map (fun _ => List.range k)).flatten
    ys := ((List.range glabels.length).map (fun j => List.replicate k j)).flatten
    summary := meanDf.flatten
    fraction := fraction
    pixels := size
    fractionMin := fraction_min
    fractionMax := fmax
    legendStep := step
    sizeTicks := ticks
    legend := size_legend fraction_min fmax dot_min dot_max ticks }

/-- `dotplot(adata, keys, by, reduce_function=..., fraction_min=...,
fraction_max=..., dot_min=..., dot_max=..., use_raw=...)`. -/
def dotplot (adata : AnnData) (keys : List String) (byKey : String)
    (reduceF : List ℚ → ℚ) (fraction_min : ℚ) (fraction_max : Option ℚ)
    (dot_min dot_max : ℚ) (use_raw : Option Bool) : Except String DotplotResult :=
  match resolveRaw adata use_raw with
  | .error e => .error e
  | .ok araw =>
    match getCol adata.obs byKey with
    | none => .error ("KeyError: " ++ byKey)
    | some byCol =>
      .ok (dotplotCore araw byCol keys reduceF fraction_min fraction_max dot_min dot_max)

/-- `scatter_matrix(adata, keys, color=..., use_raw=...)`: the assembled
frame handed to `hvplot.scatter_matrix`.  Coloring by a variable of the
resolved matrix is rejected before the key loop runs. -/
def scatter_matrix (adata : AnnData) (keys : List String) (color : Option String)
    (use_raw : Option Bool) : Except String DataFrame :=
  match resolveRaw adata use_raw with
  | .error e => .error e
  | .ok araw =>
    match color with
    | some c =>
      if c ∈ araw.var_names then
        .error "Coloring scatter matrix by gene expression not yet supported"
      else
        match getCol adata.obs c with
        | some cc => buildDf adata araw keys (setCol [] c cc)
        | none => .error ("KeyError: " ++ c)
    | none => buildDf adata araw keys []

/-- One embedding sub-plot: the title, the color channel assignment
(`c=`/`by=`/`colorbar=`) and the column the color channel reads. -/
structure EmbPlot where
  title : String
  c : Option String
  byKey : Option String
  colorbar : Bool
  colorCol : Option Column
  deriving DecidableEq, Repr

/-- `adata.obsm[name]`. -/
def getObsm (adata : AnnData) (name : String) : Except String (List (List ℚ)) :=
  match adata.obsm.find? (fun p => decide (p.1 = name)) with
  | some p => .ok p.2
  | none => .error ("KeyError: " ++ name)

/-- Embedding's `for key in keys` loop, threading the accumulated frame. -/
def embeddingLoop (adata : AnnData) (araw : VarView) :
    List (Option String) → DataFrame → Except String (List EmbPlot × DataFrame)
  | [], df => .ok ([], df)
  | none :: rest, df =>
    match embeddingLoop adata araw rest df with
    | .error e => .error e
    | .ok (ps, df2) =>
      .ok ({ title := "None", c := none, byKey := none, colorbar := false,
             colorCol := none } :: ps, df2)
  | some k :: rest, df =>
    match lookupKey adata araw k with
    | .error e => .error e
    | .ok ck =>
      let df2 := setCol df k ck
      let p : EmbPlot :=
        { title := k
          c := if ck.isNumeric then some k else none
          byKey := if ck.isNumeric then none else some k
          colorbar := ck.isNumeric
          colorCol := some ck }
      match embeddingLoop adata araw rest df2 with
      | .error e => .error e
      | .ok (ps, df3) => .ok (p :: ps, df3)

/-- The embedding plot data: the plotted x/y coordinate columns (the first
two columns of `adata.obsm['X_' + basis]`) and one sub-plot per key. -/
structure EmbResult where
  coords1 : List ℚ
  coords2 : List ℚ
  plots : List EmbPlot
  deriving DecidableEq, Repr

/-- The body of `embedding` after raw-view resolution and the coordinate
lookup: build the frame from the first two coordinate columns, then loop
over the keys. -/
def embeddingCore (adata : AnnData) (araw : VarView) (basis : String)
    (coords : List (List ℚ)) (keyList : List (Option String)) : Except String EmbResult :=
  let c1 := coords.map (fun row => row.getD 0 0)
  let c2 := coords.map (fun row => row.getD 1 0)
  let df0 : DataFrame :=
    setCol (setCol [] (basis ++ "1") (.numeric c1)) (basis ++ "2") (.numeric c2)
  match embeddingLoop adata araw keyList df0 with
  | .error e => .error e
  | .ok (ps, _) => .ok { coords1 := c1, coords2 := c2, plots := ps }

/-- `embedding(adata, basis, keys=..., use_raw=...)`. -/
def embedding (adata : AnnData) (basis : String) (keys : Option (List String))
    (use_raw : Option Bool) : Except String EmbResult :=
  let keyList : List (Option String) :=
    match keys with
    | none => [none]
    | some ks => ks.map some
  match resolveRaw adata use_raw with
  | .error e => .error e
  | .ok araw =>
    match getObsm adata ("X_" ++ basis) with
    | .error e => .error e
    | .ok coords => embeddingCore adata araw basis coords keyList

deriving instance DecidableEq for Except

/-- Extract the payload of a successful `Except` computation (used to name
the concrete results that instantiate the theorems below). -/
def getOk {α : Type} (d : α) : Except String α → α
  | .ok a => a
  | .error _ => d

/-- Placeholder `DotplotResult` for `getOk`. -/
def dpDummy : DotplotResult :=
  { numKeys := 0, groups := [], xs := [], ys := [], summary := [], fraction := []
    pixels := [], fractionMin := 0, fractionMax := 0, legendStep := 0, sizeTicks := []
    legend := { ticks := [], tickPixels := [] } }

/-- Placeholder `ScatterResult` for `getOk`. -/
def scDummy : ScatterResult :=
  { df := [], c := none, byKey := none, colorbar := false, sizeVals := [], pixels := []
    sizeMin := 0, sizeMax := 0, legend := none, fixedSize := none }

/-- Placeholder `EmbResult` for `getOk`. -/
def embDummy : EmbResult := { coords1 := [], coords2 := [], plots := [] }

/-- A two-observation annotated matrix whose `obs` holds a numeric field and
a categorical field; no raw alternate. -/
def adSmall : AnnData :=
  { var_names := ["geneA"]
    X := [[1], [2]]
    obs := [("score", Column.numeric [5, 6]), ("grp", Column.cat ["b", "a"])]
    raw := none
    obsm := [] }

/-- `adSmall` after `violin(adSmall, keys=['score'], by='grp')`: the `grp`
column of `obs` has been converted from categorical to text in place. -/
def adSmallAfter : AnnData :=
  { var_names := ["geneA"]
    X := [[1], [2]]
    obs := [("score", Column.numeric [5, 6]), ("grp", Column.text ["b", "a"])]
    raw := none
    obsm := [] }

/-- A minimal annotated matrix without a raw alternate. -/
def adNoRaw : AnnData :=
  { var_names := ["g"]
    X := [[1]]
    obs := [("f", Column.numeric [1])]
    raw := none
    obsm := [("X_u", [[0, 0]])] }

/-- Two variables, two observations, one group; `geneA` has values 1 and 3,
`geneB` has values 0 and 1. -/
def adSize : AnnData :=
  { var_names := ["geneA", "geneB"]
    X := [[1, 0], [3, 1]]
    obs := [("grp", Column.cat ["a", "a"])]
    raw := none
    obsm := [] }

/-- The frame `scatter(adSize, 'geneA', 'geneB', size='geneA')` assembles. -/
def dfSize : DataFrame :=
  getOk [] (buildDf adSize adSize.toVarView
    (scatterKeys "geneA" "geneB" none (some (Sum.inl "geneA"))) [])

/-- The result of `scatter(adSize, 'geneA', 'geneB', size='geneA',
dot_min=2, dot_max=14)`. -/
def rScSize : ScatterResult :=
  getOk scDummy (scatter adSize "geneA" "geneB" none (some (Sum.inl "geneA")) 2 14 none)

/-- The result of `dotplot(adSize, ['geneA','geneB'], 'grp')` with default
fraction and dot bounds. -/
def rDpSize : DotplotResult :=
  getOk dpDummy (dotplot adSize ["geneA", "geneB"] "grp" qmean 0 none 0 14 none)

/-- Two variables and a two-valued grouping field over three observations:
group `a` holds rows 0 and 2, group `b` holds row 1. -/
def adCells : AnnData :=
  { var_names := ["geneA", "geneB"]
    X := [[1, 0], [3, 1], [0, 2]]
    obs := [("grp", Column.cat ["a", "b", "a"])]
    raw := none
    obsm := [] }

/-- The result of `dotplot(adCells, ['geneA','geneB'], 'grp')`. -/
def rDpCells : DotplotResult :=
  getOk dpDummy (dotplot adCells ["geneA", "geneB"] "grp" qmean 0 none 0 14 none)

/-- One variable over four observations in one group, a quarter of them
non-zero: the observed fraction span is 0.25. -/
def adSpan : AnnData :=
  { var_names := ["g"]
    X := [[1], [0], [0], [0]]
    obs := [("grp", Column.cat ["a", "a", "a", "a"])]
    raw := none
    obsm := [] }

/-- The result of `dotplot(adSpan, ['g'], 'grp')` with default bounds. -/
def rDpSpan : DotplotResult :=
  getOk dpDummy (dotplot adSpan ["g"] "grp" qmean 0 none 0 14 none)

/-- One variable over two observations in one group, half non-zero, with a
categorical observation field and an embedding basis. -/
def adHalf : AnnData :=
  { var_names := ["g"]
    X := [[1], [0]]
    obs := [("cl", Column.cat ["u", "v"])]
    raw := none
    obsm := [("X_em", [[0, 1], [2, 3]])] }

/-- The result of `dotplot(adHalf, ['g'], 'grp'... fraction_min=-1)` used
against the size-tick claim (the grouping field here is `cl`). -/
def rDpNeg : DotplotResult :=
  getOk dpDummy (dotplot adHalf ["g"] "cl" qmean (-1) none 0 14 none)

/-- The result of `dotplot(adHalf, ['g'], 'cl', fraction_min=0.05)`. -/
def rDpPos : DotplotResult :=
  getOk dpDummy (dotplot adHalf ["g"] "cl" qmean 0.05 none 0 14 none)

/-- The result of `scatter(adHalf, 'g', 'g', color='cl')`: the categorical
column `cl` is handed to the renderer as the grouping field. -/
def rScCat : ScatterResult :=
  getOk scDummy (scatter adHalf "g" "g" (some "cl") none 2 14 none)

/-- The result of `embedding(adHalf, 'em', keys=['g'])`: `g` is a variable,
hence numeric coloring. -/
def rEmNum : EmbResult := getOk embDummy (embedding adHalf "em" (some ["g"]) none)

/-- The result of `embedding(adHalf, 'em', keys=['cl'])`: `cl` is a
categorical observation field, hence discrete grouping. -/
def rEmCat : EmbResult := getOk embDummy (embedding adHalf "em" (some ["cl"]) none)

/-- An annotated matrix whose `obsm` stores distinct arrays under the keys
`umap` and `X_umap`. -/
def adBasis : AnnData :=
  { var_names := ["g"]
    X := [[1], [2]]
    obs := [("cl", Column.cat ["u", "v"])]
    raw := none
    obsm := [("umap", [[9, 9], [8, 8]]), ("X_umap", [[1, 2], [3, 4]])] }

/-- The result of `embedding(adBasis, 'umap')`. -/
def rEmBasis : EmbResult := getOk embDummy (embedding adBasis "umap" none none)

/-- The violin sub-plot produced by `violin(adSmall, ['score'], by='grp')`. -/
def pViolin : ViolinPlot :=
  { key := "score"
    byCol := some (Column.text ["b", "a"])
    df := [("score", Column.numeric [5, 6]), ("grp", Column.text ["b", "a"])] }

/-- The embedding sub-plot produced by `embedding(adHalf, 'em', ['g'])`. -/
def pEmNum : EmbPlot :=
  { title := "g", c := some "g", byKey := none, colorbar := true
    colorCol := some (Column.numeric [1, 0]) }

/-- The embedding sub-plot produced by `embedding(adHalf, 'em', ['cl'])`. -/
def pEmCat : EmbPlot :=
  { title := "cl", c := none, byKey := some "cl", colorbar := false
    colorCol := some (Column.cat ["u", "v"]) }

/-- The observation rows belonging to group `j`: the rows whose grouping
label equals the `j`-th sorted distinct label of the grouping column
(direct `groupby` group membership, used to state the dotplot cell claim). -/
def groupRows (byCol : Column) (j : Nat) : List Nat :=
  (List.range byCol.valsAsLabels.length).filter
    (fun rIdx => decide (byCol.valsAsLabels.getD rIdx (.str "") =
      (sortedDistinct byCol.valsAsLabels).getD j (.str "")))

/-- The entries of variable `i` over the observations of group `j`: one
(variable, group) cell's data, computed directly from the resolved matrix
and the grouping column. -/
def cellVals (araw : VarView) (keys : List String) (byCol : Column) (i j : Nat) :
    List ℚ :=
  (groupRows byCol j).map (fun rIdx => ((araw.subMatrix keys).getD rIdx []).getD i 0)

/-! ### Supporting lemmas on the list and column operations -/

theorem getD_of_map {α β : Type} (f : α → β) (l : List α) (n : Nat) (d : β) (d2 : α)
    (h : n < l.length) : (l.map f).getD n d = f (l.getD n d2) := by
  rw [List.getD_eq_getElem _ _ (by simpa using h), List.getD_eq_getElem _ _ h,
    List.getElem_map]

theorem getD_of_range {n i : Nat} (d : Nat) (h : i < n) :
    (List.range n).getD i d = i := by
  rw [List.getD_eq_getElem _ _ (by simpa using h)]
  exact List.getElem_range _ _

theorem getD_of_replicate {α : Type} {n : Nat} (a : α) {i : Nat} (d : α) (h : i < n) :
    (List.replicate n a).getD i d = a := by
  rw [List.getD_eq_getElem _ _ (by simpa using h)]
  exact List.getElem_replicate _ _

theorem flatten_length_const {α : Type} (k : Nat) (L : List (List α))
    (h : ∀ row ∈ L, row.length = k) : L.flatten.length = L.length * k := by
  induction L with
  | nil => simp
  | cons row rest ih =>
    have hrow := h row (List.mem_cons_self _ _)
    have hrest : ∀ r ∈ rest, r.length = k := fun r hr => h r (List.mem_cons_of_mem _ hr)
    simp only [List.flatten_cons, List.length_append, List.length_cons, hrow, ih hrest]
    ring

theorem flatten_getD_const {α : Type} {k : Nat} (d : α) (L : List (List α))
    (h : ∀ row ∈ L, row.length = k) : ∀ j i : Nat, j < L.length → i < k →
    L.flatten.getD (j * k + i) d = (L.getD j []).getD i d := by
  induction L with
  | nil => intro j i hj _; exact absurd hj (Nat.not_lt_zero j)
  | cons row rest ih =>
    intro j i hj hi
    have hrow := h row (List.mem_cons_self _ _)
    have hrest : ∀ r ∈ rest, r.length = k := fun r hr => h r (List.mem_cons_of_mem _ hr)
    cases j with
    | zero =>
      simp only [List.flatten_cons, Nat.zero_mul, Nat.zero_add, List.getD_cons_zero]
      exact List.getD_append _ _ _ _ (by rw [hrow]; exact hi)
    | succ j2 =>
      have idx : (j2 + 1) * k + i = row.length + (j2 * k + i) := by rw [hrow]; ring
      rw [List.flatten_cons, idx, List.getD_eq_getElem?_getD,
        List.getElem?_append_right (Nat.le_add_right _ _), Nat.add_sub_cancel_left,
        ← List.getD_eq_getElem?_getD, List.getD_cons_succ,
        ih hrest j2 i (Nat.lt_of_succ_lt_succ hj) hi]

theorem evens_flatMap_pair {α β : Type} (m f : α → β) (l : List α) :
    evens (l.flatMap fun a => [m a, f a]) = l.map m := by
  induction l with
  | nil => rfl
  | cons a t ih =>
    show m a :: evens (t.flatMap fun a => [m a, f a]) = m a :: List.map m t
    rw [ih]

theorem odds_flatMap_pair {α β : Type} (m f : α → β) (l : List α) :
    odds (l.flatMap fun a => [m a, f a]) = l.map f := by
  induction l with
  | nil => rfl
  | cons a t ih =>
    show f a :: odds (t.flatMap fun a => [m a, f a]) = f a :: List.map f t
    rw [ih]

theorem foldl_min_le_init (t : List ℚ) : ∀ a : ℚ, t.foldl min a ≤ a := by
  induction t with
  | nil => intro a; simp
  | cons b t2 ih => intro a; exact le_trans (ih (min a b)) (min_le_left a b)

theorem foldl_min_le_mem (t : List ℚ) : ∀ a v : ℚ, v ∈ t → t.foldl min a ≤ v := by
  induction t with
  | nil => intro a v hv; cases hv
  | cons b t2 ih =>
    intro a v hv
    rcases List.mem_cons.mp hv with rfl | hv2
    · exact le_trans (foldl_min_le_init t2 (min a v)) (min_le_right a v)
    · exact ih (min a b) v hv2

theorem qmin_le_of_mem {l : List ℚ} {v : ℚ} (hv : v ∈ l) : qmin l ≤ v := by
  cases l with
  | nil => cases hv
  | cons a t =>
    rcases List.mem_cons.mp hv with rfl | hv2
    · exact foldl_min_le_init t v
    · exact foldl_min_le_mem t a v hv2

theorem init_le_foldl_max (t : List ℚ) : ∀ a : ℚ, a ≤ t.foldl max a := by
  induction t with
  | nil => intro a; simp
  | cons b t2 ih => intro a; exact le_trans (le_max_left a b) (ih (max a b))

theorem mem_le_foldl_max (t : List ℚ) : ∀ a v : ℚ, v ∈ t → v ≤ t.foldl max a := by
  induction t with
  | nil => intro a v hv; cases hv
  | cons b t2 ih =>
    intro a v hv
    rcases List.mem_cons.mp hv with rfl | hv2
    · exact le_trans (le_max_right a v) (init_le_foldl_max t2 (max a v))
    · exact ih (max a b) v hv2

theorem le_qmax_of_mem {l : List ℚ} {v : ℚ} (hv : v ∈ l) : v ≤ qmax l := by
  cases l with
  | nil => cases hv
  | cons a t =>
    rcases List.mem_cons.mp hv with rfl | hv2
    · exact init_le_foldl_max t v
    · exact mem_le_foldl_max t a v hv2

theorem interp_eq_linear {v xlo xhi : ℚ} (ylo yhi : ℚ) (h1 : xlo ≤ v) (h2 : v ≤ xhi)
    (h3 : xlo < xhi) :
    interp v xlo xhi ylo yhi = ylo + (v - xlo) * (yhi - ylo) / (xhi - xlo) := by
  have hne : xhi - xlo ≠ 0 := sub_ne_zero.mpr (ne_of_gt h3)
  unfold interp
  by_cases hv1 : v ≤ xlo
  · have hveq : v = xlo := le_antisymm hv1 h1
    rw [if_pos hv1, hveq]
    simp
  · rw [if_neg hv1]
    by_cases hv2 : xhi ≤ v
    · have hveq : v = xhi := le_antisymm h2 hv2
      rw [if_pos hv2, hveq]
      field_simp
    · rw [if_neg hv2]

theorem interp_at_min (xlo xhi ylo yhi : ℚ) : interp xlo xlo xhi ylo yhi = ylo := by
  unfold interp
  rw [if_pos le_rfl]

theorem interp_at_max {xlo xhi : ℚ} (ylo yhi : ℚ) (h : xlo < xhi) :
    interp xhi xlo xhi ylo yhi = yhi := by
  unfold interp
  rw [if_neg (not_le.mpr h), if_pos le_rfl]

theorem find?_map_overwrite_self (df : DataFrame) (k : String) (c : Column)
    (h : df.any (fun p => decide (p.1 = k)) = true) :
    (df.map (fun p => if p.1 = k then (k, c) else p)).find? (fun p => decide (p.1 = k)) =
      some (k, c) := by
  induction df with
  | nil => simp at h
  | cons p t ih =>
    by_cases hp : p.1 = k
    · rw [List.map_cons, if_pos hp, List.find?_cons_of_pos _ (by simp)]
    · have ht : t.any (fun p => decide (p.1 = k)) = true := by
        simpa [List.any_cons, hp] using h
      rw [List.map_cons, if_neg hp, List.find?_cons_of_neg _ (by simp [hp])]
      exact ih ht

theorem find?_map_overwrite_ne (df : DataFrame) {k k2 : String} (c : Column) (h : k ≠ k2) :
    (df.map (fun p => if p.1 = k2 then (k2, c) else p)).find? (fun p => decide (p.1 = k)) =
      df.find? (fun p => decide (p.1 = k)) := by
  induction df with
  | nil => rfl
  | cons p t ih =>
    by_cases hp : p.1 = k2
    · have hpk : ¬(p.1 = k) := fun hh => h (by rw [← hh, hp])
      have hk2k : ¬((k2 : String) = k) := fun hh => h hh.symm
      rw [List.map_cons, if_pos hp, List.find?_cons_of_neg _ (by simp [hk2k]),
        List.find?_cons_of_neg _ (by simp [hpk]), ih]
    · rw [List.map_cons, if_neg hp]
      by_cases hpk : p.1 = k
      · rw [List.find?_cons_of_pos _ (by simp [hpk]), List.find?_cons_of_pos _ (by simp [hpk])]
      · rw [List.find?_cons_of_neg _ (by simp [hpk]), List.find?_cons_of_neg _ (by simp [hpk]),
          ih]

theorem find?_append_pair {α : Type} (p : α → Bool) (l1 l2 : List α) :
    (l1 ++ l2).find? p = ((l1.find? p).orElse (fun _ => l2.find? p)) := by
  induction l1 with
  | nil => rfl
  | cons a t ih =>
    by_cases ha : p a = true
    · rw [List.cons_append, List.find?_cons_of_pos _ ha, List.find?_cons_of_pos _ ha]
      rfl
    · rw [List.cons_append, List.find?_cons_of_neg _ (by simp [ha]),
        List.find?_cons_of_neg _ (by simp [ha]), ih]

theorem getCol_setCol_self (df : DataFrame) (k : String) (c : Column) :
    getCol (setCol df k c) k = some c := by
  unfold setCol getCol
  by_cases hany : df.any (fun p => decide (p.1 = k)) = true
  · rw [if_pos hany, find?_map_overwrite_self df k c hany]
  · rw [if_neg hany, find?_append_pair]
    have hnone : df.find? (fun p => decide (p.1 = k)) = none := by
      rw [List.find?_eq_none]
      intro x hx
      simp only [decide_eq_true_eq]
      intro hxk
      exact hany (List.any_eq_true.mpr ⟨x, hx, by simp [hxk]⟩)
    rw [hnone, List.find?_cons_of_pos _ (by simp)]
    rfl

theorem getCol_setCol_ne (df : DataFrame) {k k2 : String} (c : Column) (h : k ≠ k2) :
    getCol (setCol df k2 c) k = getCol df k := by
  unfold setCol getCol
  by_cases hany : df.any (fun p => decide (p.1 = k2)) = true
  · rw [if_pos hany, find?_map_overwrite_ne df c h]
  · rw [if_neg hany, find?_append_pair]
    have h2 : List.find? (fun p => decide (p.1 = k)) [(k2, c)] = none := by
      rw [List.find?_cons_of_neg _
        (by simp only [decide_eq_true_eq]; exact fun hh => h hh.symm)]
      rfl
    rw [h2]
    cases df.find? (fun p => decide (p.1 = k)) <;> rfl

theorem buildDf_getCol (adata : AnnData) (m : VarView) :
    ∀ (keys : List String) (df0 df : DataFrame) (key : String) (c : Column),
      buildDf adata m keys df0 = .ok df → lookupKey adata m key = .ok c →
      (key ∈ keys ∨ getCol df0 key = some c) → getCol df key = some c := by
  intro keys
  induction keys with
  | nil =>
    intro df0 df key c hb hl hmem
    rcases hmem with hmem | hmem
    · cases hmem
    · cases hb
      exact hmem
  | cons k2 rest ih =>
    intro df0 df key c hb hl hmem
    unfold buildDf at hb
    cases hlk : lookupKey adata m k2 with
    | error e => rw [hlk] at hb; cases hb
    | ok c2 =>
      rw [hlk] at hb
      by_cases hkk : key = k2
      · subst hkk
        have hc2 : c2 = c := by
          rw [hlk] at hl
          cases hl
          rfl
        subst hc2
        exact ih (setCol df0 key c2) df key c2 hb hl
          (Or.inr (getCol_setCol_self df0 key c2))
      · rcases hmem with hmem | hmem
        · rcases List.mem_cons.mp hmem with hcase | hcase
          · exact absurd hcase hkk
          · exact ih (setCol df0 k2 c2) df key c hb hl (Or.inl hcase)
        · exact ih (setCol df0 k2 c2) df key c hb hl
            (Or.inr (by rw [getCol_setCol_ne df0 c2 hkk]; exact hmem))

theorem arange_length (start stop step : ℚ) :
    (arange start stop step).length = (⌈(stop - start) / step⌉).toNat := by
  unfold arange
  rw [List.length_map, List.length_range]

theorem arange_getD (start stop step : ℚ) (n : Nat) (d : ℚ)
    (h : n < (arange start stop step).length) :
    (arange start stop step).getD n d = start + (n : ℚ) * step := by
  rw [arange_length] at h
  unfold arange
  rw [getD_of_map _ _ _ _ 0 (by simpa using h), getD_of_range 0 h]

theorem arange_head (start stop step : ℚ) (hlt : start < stop) (hstep : 0 < step) :
    (arange start stop step).head? = some start := by
  have hpos : 0 < ⌈(stop - start) / step⌉ := by
    rw [Int.ceil_pos]
    exact div_pos (sub_pos.mpr hlt) hstep
  have hN : 0 < (⌈(stop - start) / step⌉).toNat := by omega
  unfold arange
  rw [List.head?_eq_getElem?, List.getElem?_map, List.getElem?_range hN]
  simp

theorem arange_mem_lt (start stop step : ℚ) (hstep : 0 < step) :
    ∀ t ∈ arange start stop step, t < stop := by
  intro t ht
  unfold arange at ht
  rcases List.mem_map.mp ht with ⟨n, hn, rfl⟩
  have hnN : n < (⌈(stop - start) / step⌉).toNat := List.mem_range.mp hn
  have hpos : 0 < ⌈(stop - start) / step⌉ := by omega
  have htoNat : ((⌈(stop - start) / step⌉).toNat : ℤ) = ⌈(stop - start) / step⌉ := by omega
  have hcast : (((⌈(stop - start) / step⌉).toNat : ℕ) : ℚ) =
      ((⌈(stop - start) / step⌉ : ℤ) : ℚ) := by
    exact_mod_cast congrArg (fun z : ℤ => (z : ℚ)) htoNat
  have hq : ((n : ℚ) + 1) ≤ (((⌈(stop - start) / step⌉).toNat : ℕ) : ℚ) := by
    exact_mod_cast hnN
  have hceil : ((⌈(stop - start) / step⌉ : ℤ) : ℚ) < (stop - start) / step + 1 :=
    Int.ceil_lt_add_one _
  have hnq : (n : ℚ) < (stop - start) / step := by
    rw [hcast] at hq
    linarith
  have hmul : (n : ℚ) * step < ((stop - start) / step) * step :=
    (mul_lt_mul_right hstep).mpr hnq
  rw [div_mul_cancel₀ _ (ne_of_gt hstep)] at hmul
  linarith

/-! ### Inversion lemmas for the six functions -/

theorem resolveRaw_missing {adata : AnnData} (h : adata.raw = none) :
    resolveRaw adata (some true) = .error "Raw data not found" := by
  simp [resolveRaw, h]

theorem violin_resolved {adata : AnnData} {uraw : Option Bool} {araw : VarView}
    (hm : resolveRaw adata uraw = .ok araw) (keys : List String) (byKey : Option String) :
    violin adata keys byKey uraw = violinLoop araw byKey keys adata := by
  simp [violin, hm]

theorem dotplot_resolved {adata : AnnData} {uraw : Option Bool} {araw : VarView}
    {byKey : String} {byCol : Column}
    (hm : resolveRaw adata uraw = .ok araw) (hb : getCol adata.obs byKey = some byCol)
    (keys : List String) (reduceF : List ℚ → ℚ) (fmin : ℚ) (fmaxo : Option ℚ)
    (dmin dmax : ℚ) :
    dotplot adata keys byKey reduceF fmin fmaxo dmin dmax uraw =
      .ok (dotplotCore araw byCol keys reduceF fmin fmaxo dmin dmax) := by
  simp [dotplot, hm, hb]

theorem scatter_resolved {adata : AnnData} {uraw : Option Bool} {araw : VarView}
    {x y : String} {color : Option String} {size : Option (String ⊕ ℚ)} {df : DataFrame}
    (hm : resolveRaw adata uraw = .ok araw)
    (hdf : buildDf adata araw (scatterKeys x y color size) [] = .ok df)
    (dmin dmax : ℚ) :
    scatter adata x y color size dmin dmax uraw = scatterCore df color size dmin dmax := by
  simp [scatter, hm, hdf]

theorem embedding_resolved_one {adata : AnnData} {uraw : Option Bool} {araw : VarView}
    {basis : String} {coords : List (List ℚ)} {k : String} {ck : Column}
    (hm : resolveRaw adata uraw = .ok araw)
    (ho : getObsm adata ("X_" ++ basis) = .ok coords)
    (hk : lookupKey adata araw k = .ok ck) :
    embedding adata basis (some [k]) uraw =
      .ok { coords1 := coords.map (fun row => row.getD 0 0)
            coords2 := coords.map (fun row => row.getD 1 0)
            plots := [{ title := k
                        c := if ck.isNumeric then some k else none
                        byKey := if ck.isNumeric then none else some k
                        colorbar := ck.isNumeric
                        colorCol := some ck }] } := by
  simp [embedding, embeddingCore, hm, ho, embeddingLoop, hk]

theorem violinConvert_byCol {adata : AnnData} {key : String} {byKey : Option String}
    {df : DataFrame} {aliased : Bool} {p : ViolinPlot} {adata2 : AnnData}
    (h : violinConvert adata key byKey df aliased = .ok (p, adata2)) :
    ∀ c, p.byCol = some c → c.isCat = false := by
  cases byKey with
  | none =>
    unfold violinConvert at h
    cases h
    intro c hc
    cases hc
  | some b =>
    unfold violinConvert at h
    dsimp only at h
    cases hg : getCol df b with
    | none => rw [hg] at h; cases h
    | some cb =>
      rw [hg] at h
      dsimp only at h
      by_cases hcat : cb.isCat = true
      · rw [if_pos hcat] at h
        cases h
        intro c hc
        rw [getCol_setCol_self] at hc
        cases hc
        cases cb <;> simp [Column.astypeStr, Column.isCat]
      · rw [if_neg hcat] at h
        cases h
        intro c hc
        cases hc
        simpa using hcat

theorem violinKeyStep_byCol {adata : AnnData} {araw : VarView} {byKey : Option String}
    {key : String} {p : ViolinPlot} {adata2 : AnnData}
    (h : violinKeyStep adata araw byKey key = .ok (p, adata2)) :
    ∀ c, p.byCol = some c → c.isCat = false := by
  unfold violinKeyStep at h
  cases hb : violinBuildDf adata araw byKey key with
  | error e => rw [hb] at h; cases h
  | ok pr =>
    obtain ⟨df, al⟩ := pr
    rw [hb] at h
    exact violinConvert_byCol h

theorem violinLoop_byCol {araw : VarView} {byKey : Option String} :
    ∀ {keys : List String} {adata : AnnData} {plots : List ViolinPlot} {adata2 : AnnData},
      violinLoop araw byKey keys adata = .ok (plots, adata2) →
      ∀ p ∈ plots, ∀ c, p.byCol = some c → c.isCat = false := by
  intro keys
  induction keys with
  | nil =>
    intro adata plots adata2 h p hp
    cases h
    cases hp
  | cons key rest ih =>
    intro adata plots adata2 h p hp
    unfold violinLoop at h
    cases hstep : violinKeyStep adata araw byKey key with
    | error e => rw [hstep] at h; cases h
    | ok pr =>
      obtain ⟨p0, ad2⟩ := pr
      rw [hstep] at h
      dsimp only at h
      cases hloop : violinLoop araw byKey rest ad2 with
      | error e => rw [hloop] at h; cases h
      | ok pr2 =>
        obtain ⟨ps, ad3⟩ := pr2
        rw [hloop] at h
        cases h
        rcases List.mem_cons.mp hp with rfl | hp2
        · exact violinKeyStep_byCol hstep
        · exact ih hloop p hp2

theorem size_legend_step_spec (s : ℚ) :
    (s ≤ 0.3 → size_legend_step s = 0.05) ∧
    (0.3 < s → s ≤ 0.6 → size_legend_step s = 0.1) ∧
    (0.6 < s → size_legend_step s = 0.2) := by
  unfold size_legend_step
  refine ⟨fun h => ?_, fun h1 h2 => ?_, fun h => ?_⟩
  · rw [if_neg (fun hc => absurd h (not_le.mpr hc.1)), if_pos h]
  · rw [if_pos ⟨h1, h2⟩]
  · rw [if_neg (fun hc => absurd hc.2 (not_le.mpr (by linarith))),
      if_neg (not_le.mpr (by linarith))]

theorem size_legend_step_pos (s : ℚ) : 0 < size_legend_step s := by
  unfold size_legend_step
  split
  · norm_num
  · split <;> norm_num

/-! ### The claims -/

/-- Claim C1: the specification states that no plot function mutates the
annotated matrix.  The code violates this: in `violin`, when a requested key
is an observation field, `df = adata.obs` aliases the metadata table and the
categorical-`by` conversion `df[by] = df[by].astype(str)` writes through —
after the call the dtype of the `by` column of `adata.obs` has changed from
categorical to text.  This theorem evaluates `violin` at such an input and
exhibits the mutated state. -/
theorem C1_violin_mutates_obs :
    (violin adSmall ["score"] (some "grp") none).map (fun pr => pr.2) = .ok adSmallAfter ∧
    adSmallAfter ≠ adSmall ∧
    getCol adSmall.obs "grp" = some (Column.cat ["b", "a"]) ∧
    getCol adSmallAfter.obs "grp" = some (Column.text ["b", "a"]) := by
  refine ⟨by decide, by decide, by decide, by decide⟩

/-- Claim C2: every one of the six plot functions called with
`use_raw=True` on an annotated matrix without a raw alternate fails with the
`Raw data not found` error, whatever the other arguments are. -/
theorem C2_use_raw_missing (adata : AnnData) (h : adata.raw = none)
    (keys : List String) (byO : Option String) (byKey : String) (x y basis : String)
    (color : Option String) (size : Option (String ⊕ ℚ)) (reduceF : List ℚ → ℚ)
    (fmin : ℚ) (fmaxo : Option ℚ) (dmin dmax : ℚ) (keysO : Option (List String)) :
    violin adata keys byO (some true) = .error "Raw data not found" ∧
    heatmap adata keys byKey (some true) = .error "Raw data not found" ∧
    scatter adata x y color size dmin dmax (some true) = .error "Raw data not found" ∧
    dotplot adata keys byKey reduceF fmin fmaxo dmin dmax (some true) =
      .error "Raw data not found" ∧
    scatter_matrix adata keys color (some true) = .error "Raw data not found" ∧
    embedding adata basis keysO (some true) = .error "Raw data not found" := by
  have hr := resolveRaw_missing h
  exact ⟨by simp [violin, hr], by simp [heatmap, hr], by simp [scatter, hr],
    by simp [dotplot, hr], by simp [scatter_matrix, hr], by simp [embedding, hr]⟩

/-- Witness for C2 at a concrete raw-less annotated matrix. -/
theorem C2_use_raw_missing_witness :
    adNoRaw.raw = none ∧
    violin adNoRaw ["g"] none (some true) = .error "Raw data not found" ∧
    heatmap adNoRaw ["g"] "f" (some true) = .error "Raw data not found" ∧
    scatter adNoRaw "g" "g" none none 2 14 (some true) = .error "Raw data not found" ∧
    dotplot adNoRaw ["g"] "f" qmean 0 none 2 14 (some true) =
      .error "Raw data not found" ∧
    scatter_matrix adNoRaw ["g"] none (some true) = .error "Raw data not found" ∧
    embedding adNoRaw "u" (some ["g"]) (some true) = .error "Raw data not found" :=
  ⟨rfl, C2_use_raw_missing adNoRaw rfl ["g"] none "f" "g" "g" "u" none none qmean
    0 none 2 14 (some ["g"])⟩

/-- Claim C7: `scatter_matrix` rejects a `color` argument naming a variable
of the resolved matrix with the not-yet-implemented error, for every keys
list and every raw-view flag — the guard runs before any key extraction, so
even unresolvable keys never get looked up. -/
theorem C7_scatter_matrix_color_guard (adata : AnnData) (uraw : Option Bool)
    (araw : VarView) (color : String) (keys : List String)
    (hm : resolveRaw adata uraw = .ok araw) (hc : color ∈ araw.var_names) :
    scatter_matrix adata keys (some color) uraw =
      .error "Coloring scatter matrix by gene expression not yet supported" := by
  simp [scatter_matrix, hm, hc]

/-- Witness for C7: the guard fires even though the requested key does not
exist anywhere. -/
theorem C7_scatter_matrix_color_guard_witness :
    resolveRaw adNoRaw none = .ok adNoRaw.toVarView ∧
    "g" ∈ adNoRaw.toVarView.var_names ∧
    scatter_matrix adNoRaw ["nosuchfield"] (some "g") none =
      .error "Coloring scatter matrix by gene expression not yet supported" :=
  ⟨by decide, by decide,
    C7_scatter_matrix_color_guard adNoRaw none adNoRaw.toVarView "g" ["nosuchfield"]
      (by decide) (by decide)⟩

/-- Claim C5: dotplot's size-legend step is selected from
`span = fraction_max - fraction_min` by the fixed rule table
(`span ≤ 0.3 → 0.05`, `0.3 < span ≤ 0.6 → 0.1`, `0.6 < span → 0.2`,
boundaries included in the smaller step). -/
theorem C5_dotplot_legend_step (adata : AnnData) (keys : List String) (byKey : String)
    (reduceF : List ℚ → ℚ) (fmin : ℚ) (fmaxo : Option ℚ) (dmin dmax : ℚ)
    (uraw : Option Bool) (r : DotplotResult)
    (hok : dotplot adata keys byKey reduceF fmin fmaxo dmin dmax uraw = .ok r) :
    (r.fractionMax - r.fractionMin ≤ 0.3 → r.legendStep = 0.05) ∧
    (0.3 < r.fractionMax - r.fractionMin → r.fractionMax - r.fractionMin ≤ 0.6 →
      r.legendStep = 0.1) ∧
    (0.6 < r.fractionMax - r.fractionMin → r.legendStep = 0.2) ∧
    (r.fractionMax - r.fractionMin = 0.3 → r.legendStep = 0.05) ∧
    (r.fractionMax - r.fractionMin = 0.6 → r.legendStep = 0.1) := by
  unfold dotplot at hok
  cases hm : resolveRaw adata uraw with
  | error e => rw [hm] at hok; cases hok
  | ok araw =>
    rw [hm] at hok
    dsimp only at hok
    cases hb : getCol adata.obs byKey with
    | none => rw [hb] at hok; dsimp only at hok; cases hok
    | some byCol =>
      rw [hb] at hok
      dsimp only at hok
      cases hok
      have hstep : (dotplotCore araw byCol keys reduceF fmin fmaxo dmin dmax).legendStep =
          size_legend_step
            ((dotplotCore araw byCol keys reduceF fmin fmaxo dmin dmax).fractionMax -
              (dotplotCore araw byCol keys reduceF fmin fmaxo dmin dmax).fractionMin) := rfl
      rw [hstep]
      have hs := size_legend_step_spec
        ((dotplotCore araw byCol keys reduceF fmin fmaxo dmin dmax).fractionMax -
          (dotplotCore araw byCol keys reduceF fmin fmaxo dmin dmax).fractionMin)
      exact ⟨hs.1, hs.2.1, hs.2.2,
        fun h => hs.1 (le_of_eq h),
        fun h => hs.2.1 (by rw [h]; norm_num) (le_of_eq h)⟩

/-- Witness for C5 at a concrete dotplot call whose observed span is 0.25. -/
theorem C5_dotplot_legend_step_witness :
    rDpSpan.fractionMax - rDpSpan.fractionMin = 0.25 ∧
    rDpSpan.legendStep = 0.05 ∧
    (rDpSpan.fractionMax - rDpSpan.fractionMin ≤ 0.3 → rDpSpan.legendStep = 0.05) := by
  have h := C5_dotplot_legend_step adSpan ["g"] "grp" qmean 0 none 0 14 none rDpSpan
    (by decide)
  exact ⟨by decide, h.1 (by decide), h.1⟩

/-- Claim C8: in `embedding`, a numeric color column is passed continuously
(`c=key`) with a color-bar, a non-numeric one discretely (`by=key`) without
a color-bar. -/
theorem C8_embedding_color_encoding (adata : AnnData) (basis k : String)
    (uraw : Option Bool) (araw : VarView) (coords : List (List ℚ)) (ck : Column)
    (r : EmbResult)
    (hm : resolveRaw adata uraw = .ok araw)
    (ho : getObsm adata ("X_" ++ basis) = .ok coords)
    (hk : lookupKey adata araw k = .ok ck)
    (hok : embedding adata basis (some [k]) uraw = .ok r) :
    ∀ p ∈ r.plots,
      (ck.isNumeric = true → p.c = some k ∧ p.colorbar = true ∧ p.byKey = none) ∧
      (ck.isNumeric = false → p.c = none ∧ p.byKey = some k ∧ p.colorbar = false) := by
  rw [embedding_resolved_one hm ho hk] at hok
  cases hok
  intro p hp
  have hp2 := List.mem_singleton.mp hp
  subst hp2
  constructor
  · intro hnum
    simp [hnum]
  · intro hnum
    simp [hnum]

/-- Witness for C8: one embedding call colored by a variable (numeric) and
one colored by a categorical observation field. -/
theorem C8_embedding_color_encoding_witness :
    (pEmNum.c = some "g" ∧ pEmNum.colorbar = true ∧ pEmNum.byKey = none) ∧
    (pEmCat.c = none ∧ pEmCat.byKey = some "cl" ∧ pEmCat.colorbar = false) := by
  constructor
  · exact (C8_embedding_color_encoding adHalf "em" "g" none adHalf.toVarView
      [[0, 1], [2, 3]] (Column.numeric [1, 0]) rEmNum (by decide) (by decide) (by decide)
      (by decide) pEmNum (by decide)).1 rfl
  · exact (C8_embedding_color_encoding adHalf "em" "cl" none adHalf.toVarView
      [[0, 1], [2, 3]] (Column.cat ["u", "v"]) rEmCat (by decide) (by decide) (by decide)
      (by decide) pEmCat (by decide)).2 rfl

theorem embeddingCore_coords {adata : AnnData} {araw : VarView} {basis : String}
    {coords : List (List ℚ)} {keyList : List (Option String)} {r : EmbResult}
    (hok : embeddingCore adata araw basis coords keyList = .ok r) :
    r.coords1 = coords.map (fun row => row.getD 0 0) ∧
    r.coords2 = coords.map (fun row => row.getD 1 0) := by
  unfold embeddingCore at hok
  dsimp only at hok
  split at hok
  · cases hok
  · cases hok
    exact ⟨rfl, rfl⟩

/-- Claim C10 is refuted: the plotted coordinates do not come from the
coordinate array stored under the basis name itself.  Here `obsm` stores
`[[9,9],[8,8]]` under the key `umap`, yet `embedding(adBasis, 'umap')` plots
the columns of the array stored under `X_umap`. -/
theorem C10_counterexample :
    getObsm adBasis "umap" = .ok [[9, 9], [8, 8]] ∧
    (embedding adBasis "umap" none none).map (fun r => (r.coords1, r.coords2)) =
      .ok ([1, 3], [2, 4]) ∧
    (([1, 3], [2, 4]) : List ℚ × List ℚ) ≠ ([9, 8], [9, 8]) := by
  refine ⟨by decide, by decide, by decide⟩

/-- Claim C10 amended: for every embedding call with basis name `b`, the
plotted x and y coordinates are the first two columns of the coordinate
array stored on the annotated matrix under the key `'X_' + b` (the basis
name prefixed with `X_`), not under `b` itself. -/
theorem C10_amended_coords_key (adata : AnnData) (basis : String)
    (keys : Option (List String)) (uraw : Option Bool) (araw : VarView)
    (coords : List (List ℚ)) (r : EmbResult)
    (hm : resolveRaw adata uraw = .ok araw)
    (ho : getObsm adata ("X_" ++ basis) = .ok coords)
    (hok : embedding adata basis keys uraw = .ok r) :
    r.coords1 = coords.map (fun row => row.getD 0 0) ∧
    r.coords2 = coords.map (fun row => row.getD 1 0) := by
  unfold embedding at hok
  rw [hm] at hok
  dsimp only at hok
  rw [ho] at hok
  dsimp only at hok
  exact embeddingCore_coords hok

/-- Witness for the amended C10 at `adBasis`. -/
theorem C10_amended_coords_key_witness :
    getObsm adBasis ("X_" ++ "umap") = .ok [[1, 2], [3, 4]] ∧
    rEmBasis.coords1 = [[1, 2], [3, 4]].map (fun row => row.getD 0 0) ∧
    rEmBasis.coords2 = [[1, 2], [3, 4]].map (fun row => row.getD 1 0) := by
  have h := C10_amended_coords_key adBasis "umap" none none adBasis.toVarView
    [[1, 2], [3, 4]] rEmBasis (by decide) (by decide) (by decide)
  exact ⟨by decide, h.1, h.2⟩

/-- Claim C9 is refuted on its zero test: the code starts the tick range at
`fraction_min + step` whenever `fraction_min > 0` fails, not only when
`fraction_min` is exactly 0.  With `fraction_min = -1` (which is not 0) the
first tick is `-0.8 = -1 + 0.2`, not `-1`. -/
theorem C9_counterexample :
    (dotplot adHalf ["g"] "cl" qmean (-1) none 0 14 none).map
        (fun r => (r.fractionMin, r.legendStep, r.sizeTicks.head?)) =
      .ok (-1, 0.2, some (-0.8)) ∧
    ((-1 : ℚ) ≠ 0) ∧ (some (-0.8 : ℚ) ≠ some (-1 : ℚ)) := by
  refine ⟨by decide, by decide, by decide⟩

/-- Claim C9 amended: the size ticks are the arithmetic progression with the
selected step starting at `fraction_min` when `fraction_min` is strictly
positive and at `fraction_min + step` otherwise (in particular when it is
exactly 0); no tick exceeds `fraction_max + step`. -/
theorem C9_amended_size_ticks (adata : AnnData) (keys : List String) (byKey : String)
    (reduceF : List ℚ → ℚ) (fmin : ℚ) (fmaxo : Option ℚ) (dmin dmax : ℚ)
    (uraw : Option Bool) (r : DotplotResult)
    (hok : dotplot adata keys byKey reduceF fmin fmaxo dmin dmax uraw = .ok r)
    (hlt : r.fractionMin < r.fractionMax) :
    (0 < r.fractionMin → r.sizeTicks.head? = some r.fractionMin) ∧
    (r.fractionMin ≤ 0 → r.sizeTicks.head? = some (r.fractionMin + r.legendStep)) ∧
    (∀ n, n < r.sizeTicks.length →
      r.sizeTicks.getD n 0 =
        (if 0 < r.fractionMin then r.fractionMin else r.fractionMin + r.legendStep) +
          (n : ℚ) * r.legendStep) ∧
    (∀ t ∈ r.sizeTicks, t ≤ r.fractionMax + r.legendStep) := by
  unfold dotplot at hok
  cases hm : resolveRaw adata uraw with
  | error e => rw [hm] at hok; cases hok
  | ok araw =>
    rw [hm] at hok
    dsimp only at hok
    cases hb : getCol adata.obs byKey with
    | none => rw [hb] at hok; dsimp only at hok; cases hok
    | some byCol =>
      rw [hb] at hok
      dsimp only at hok
      cases hok
      set rr := dotplotCore araw byCol keys reduceF fmin fmaxo dmin dmax with hrr
      have hfmin : rr.fractionMin = fmin := rfl
      have hticks : rr.sizeTicks =
          arange (if fmin > 0 ∨ fmin > 0 then fmin else fmin + rr.legendStep)
            (rr.fractionMax + rr.legendStep) rr.legendStep := rfl
      have hstep : rr.legendStep = size_legend_step (rr.fractionMax - rr.fractionMin) := rfl
      have hpos : 0 < rr.legendStep := by
        rw [hstep]
        exact size_legend_step_pos _
      rw [hfmin] at hlt
      refine ⟨?_, ?_, ?_, ?_⟩
      · intro hf
        rw [hfmin] at hf
        rw [hticks, if_pos (Or.inl hf)]
        exact arange_head _ _ _ (by linarith) hpos
      · intro hf
        rw [hfmin] at hf
        rw [hticks, if_neg (fun hor => absurd (hor.elim id id) (not_lt.mpr hf))]
        exact arange_head _ _ _ (by linarith) hpos
      · intro n hn
        rw [hticks] at hn
        rw [hticks, arange_getD _ _ _ _ _ hn]
        by_cases hf : 0 < fmin
        · rw [if_pos (Or.inl hf), if_pos (show 0 < rr.fractionMin from hf), hfmin]
        · rw [if_neg (fun hor => absurd (hor.elim id id) hf),
            if_neg (show ¬(0 < rr.fractionMin) from hf), hfmin]
      · intro t ht
        rw [hticks] at ht
        exact le_of_lt (arange_mem_lt _ _ _ hpos t ht)

/-- Witness for the amended C9 at `dotplot(adHalf, ['g'], 'cl',
fraction_min=0.05)`. -/
theorem C9_amended_size_ticks_witness :
    rDpPos.fractionMin < rDpPos.fractionMax ∧
    rDpPos.sizeTicks.head? = some rDpPos.fractionMin ∧
    rDpPos.sizeTicks.getD 2 0 =
      (if 0 < rDpPos.fractionMin then rDpPos.fractionMin
        else rDpPos.fractionMin + rDpPos.legendStep) + (2 : ℚ) * rDpPos.legendStep ∧
    rDpPos.sizeTicks.getD 0 0 ≤ rDpPos.fractionMax + rDpPos.legendStep := by
  have h := C9_amended_size_ticks adHalf ["g"] "cl" qmean 0.05 none 0 14 none rDpPos
    (by decide) (by decide)
  exact ⟨by decide, h.1 (by decide), h.2.2.1 2 (by decide), h.2.2.2 _ (by decide)⟩

/-- Claim C6 is refuted for `scatter`: with a categorical `color` field the
column handed to the renderer (grouped via `by=color`) is the native
categorical column, not a plain-text conversion. -/
theorem C6_counterexample :
    (scatter adHalf "g" "g" (some "cl") none 2 14 none).map
        (fun r => (getCol r.df "cl", r.byKey)) =
      .ok (some (Column.cat ["u", "v"]), some "cl") ∧
    (Column.cat ["u", "v"]).isCat = true ∧
    (Column.cat ["u", "v"]).astypeStr = Column.text ["u", "v"] ∧
    Column.cat ["u", "v"] ≠ Column.text ["u", "v"] := by
  refine ⟨by decide, by decide, by decide, by decide⟩

/-- Claim C6 amended: only `violin` converts its categorical grouping column
to plain text before rendering (its `by` column is never categorical-typed);
`scatter` and `embedding` hand the observation column to the renderer in its
native representation, without any conversion. -/
theorem C6_amended_categorical_conversion :
    (∀ (adata : AnnData) (keys : List String) (byKey : Option String) (uraw : Option Bool)
       (plots : List ViolinPlot) (adata2 : AnnData),
       violin adata keys byKey uraw = .ok (plots, adata2) →
       ∀ p ∈ plots, ∀ c, p.byCol = some c → c.isCat = false) ∧
    (∀ (adata : AnnData) (x y color : String) (size : Option (String ⊕ ℚ))
       (dmin dmax : ℚ) (uraw : Option Bool) (araw : VarView) (cc : Column)
       (r : ScatterResult),
       resolveRaw adata uraw = .ok araw →
       ¬(color ∈ araw.var_names) →
       getCol adata.obs color = some cc →
       color ≠ "pixels" →
       scatter adata x y (some color) size dmin dmax uraw = .ok r →
       getCol r.df color = some cc) ∧
    (∀ (adata : AnnData) (basis k : String) (uraw : Option Bool) (araw : VarView)
       (coords : List (List ℚ)) (cc : Column) (r : EmbResult),
       resolveRaw adata uraw = .ok araw →
       getObsm adata ("X_" ++ basis) = .ok coords →
       ¬(k ∈ araw.var_names) →
       getCol adata.obs k = some cc →
       embedding adata basis (some [k]) uraw = .ok r →
       ∀ p ∈ r.plots, p.colorCol = some cc) := by
  refine ⟨?_, ?_, ?_⟩
  · intro adata keys byKey uraw plots adata2 hok p hp c hc
    unfold violin at hok
    cases hm : resolveRaw adata uraw with
    | error e => rw [hm] at hok; cases hok
    | ok araw =>
      rw [hm] at hok
      exact violinLoop_byCol hok p hp c hc
  · intro adata x y color size dmin dmax uraw araw cc r hm hnv hobs hpix hok
    have hl : lookupKey adata araw color = .ok cc := by
      unfold lookupKey
      rw [if_neg hnv, hobs]
    unfold scatter at hok
    rw [hm] at hok
    dsimp only at hok
    cases hdf : buildDf adata araw (scatterKeys x y (some color) size) [] with
    | error e => rw [hdf] at hok; cases hok
    | ok df =>
      rw [hdf] at hok
      dsimp only at hok
      have hdfcol : getCol df color = some cc :=
        buildDf_getCol adata araw _ [] df color cc hdf hl
          (Or.inl (by simp [scatterKeys]))
      unfold scatterCore at hok
      cases size with
      | none =>
        dsimp only at hok
        cases hok
        exact hdfcol
      | some sv =>
        cases sv with
        | inr px =>
          dsimp only at hok
          cases hok
          exact hdfcol
        | inl s =>
          dsimp only at hok
          cases hgs : getCol df s with
          | none =>
            rw [hgs] at hok
            dsimp only at hok
            cases hok
          | some cs =>
            rw [hgs] at hok
            cases cs with
            | numeric svals =>
              dsimp only at hok
              cases hok
              show getCol (setCol df "pixels" _) color = some cc
              rw [getCol_setCol_ne df _ hpix]
              exact hdfcol
            | cat vs => dsimp only at hok; cases hok
            | text vs => dsimp only at hok; cases hok
  · intro adata basis k uraw araw coords cc r hm ho hnv hobs hok
    have hl : lookupKey adata araw k = .ok cc := by
      unfold lookupKey
      rw [if_neg hnv, hobs]
    rw [embedding_resolved_one hm ho hl] at hok
    cases hok
    intro p hp
    have hp2 := List.mem_singleton.mp hp
    subst hp2
    rfl

/-- Witness for the amended C6: violin's converted column, scatter's and
embedding's unconverted categorical columns, at concrete calls. -/
theorem C6_amended_categorical_conversion_witness :
    (Column.text ["b", "a"]).isCat = false ∧
    getCol rScCat.df "cl" = some (Column.cat ["u", "v"]) ∧
    pEmCat.colorCol = some (Column.cat ["u", "v"]) := by
  refine ⟨?_, ?_, ?_⟩
  · exact C6_amended_categorical_conversion.1 adSmall ["score"] (some "grp") none
      [pViolin] adSmallAfter (by decide) pViolin (by decide) (Column.text ["b", "a"]) rfl
  · exact C6_amended_categorical_conversion.2.1 adHalf "g" "g" "cl" none 2 14 none
      adHalf.toVarView (Column.cat ["u", "v"]) rScCat (by decide) (by decide) (by decide)
      (by decide) (by decide)
  · exact C6_amended_categorical_conversion.2.2 adHalf "em" "cl" none adHalf.toVarView
      [[0, 1], [2, 3]] (Column.cat ["u", "v"]) rEmCat (by decide) (by decide) (by decide)
      (by decide) (by decide) pEmCat (by decide)

theorem nonZeroFrac_nonneg (l : List ℚ) : 0 ≤ nonZeroFrac l := by
  unfold nonZeroFrac
  positivity

theorem mem_fracDf_nonneg {Xsub : List (List ℚ)} {reduceF : List ℚ → ℚ} {k : Nat}
    {gidx : List (List Nat)} {f : ℚ}
    (hf : f ∈ (gidx.map (fun idxs => odds (aggRow Xsub reduceF k idxs))).flatten) :
    0 ≤ f := by
  rcases List.mem_flatten.mp hf with ⟨row, hrow, hfr⟩
  rcases List.mem_map.mp hrow with ⟨idxs, _, hroweq⟩
  rw [← hroweq] at hfr
  unfold aggRow at hfr
  rw [odds_flatMap_pair] at hfr
  rcases List.mem_map.mp hfr with ⟨i2, _, hfeq⟩
  rw [← hfeq]
  exact nonZeroFrac_nonneg _

/-- Claim C3: size encoding is linear interpolation.  In `scatter`, sizing
by a numeric field with observed range `[vmin, vmax]`, `vmin < vmax`, every
observation's pixel size is the linear image of its value on
`[dot_min, dot_max]`; minimum-valued observations get exactly `dot_min`,
maximum-valued ones exactly `dot_max`; the legend tick pixel sizes apply the
same linear map to the ticks `[vmin, (vmin+vmax)/2, vmax]`.  In `dotplot`
(with `fraction_max` left to default to the observed maximum fraction and
`fraction_min ≤ 0`, which covers its default 0), the fraction-to-size map is
the linear map from `(fraction_min, fraction_max)` to `(dot_min, dot_max)`. -/
theorem C3_linear_size_mapping :
    (∀ (adata : AnnData) (x y sfield : String) (color : Option String) (dmin dmax : ℚ)
       (uraw : Option Bool) (araw : VarView) (df : DataFrame) (svals : List ℚ)
       (r : ScatterResult),
       resolveRaw adata uraw = .ok araw →
       buildDf adata araw (scatterKeys x y color (some (Sum.inl sfield))) [] = .ok df →
       getCol df sfield = some (.numeric svals) →
       qmin svals < qmax svals →
       scatter adata x y color (some (Sum.inl sfield)) dmin dmax uraw = .ok r →
       (r.pixels = svals.map (fun v =>
          dmin + (v - qmin svals) * (dmax - dmin) / (qmax svals - qmin svals)) ∧
        (∀ n, n < svals.length → svals.getD n 0 = qmin svals → r.pixels.getD n 0 = dmin) ∧
        (∀ n, n < svals.length → svals.getD n 0 = qmax svals → r.pixels.getD n 0 = dmax) ∧
        r.legend.map SizeLegend.ticks =
          some [qmin svals, (qmin svals + qmax svals) / 2, qmax svals] ∧
        r.legend.map SizeLegend.tickPixels =
          some ([qmin svals, (qmin svals + qmax svals) / 2, qmax svals].map (fun v =>
            dmin + (v - qmin svals) * (dmax - dmin) / (qmax svals - qmin svals))))) ∧
    (∀ (adata : AnnData) (keys : List String) (byKey : String) (reduceF : List ℚ → ℚ)
       (fmin dmin dmax : ℚ) (uraw : Option Bool) (r : DotplotResult),
       dotplot adata keys byKey reduceF fmin none dmin dmax uraw = .ok r →
       fmin ≤ 0 →
       fmin < r.fractionMax →
       (r.fractionMax = qmax r.fraction ∧
        r.pixels = r.fraction.map (fun f =>
          dmin + (f - fmin) * (dmax - dmin) / (r.fractionMax - fmin)))) := by
  constructor
  · intro adata x y sfield color dmin dmax uraw araw df svals r hm hdf hs hlt hok
    rw [scatter_resolved hm hdf] at hok
    unfold scatterCore at hok
    dsimp only at hok
    rw [hs] at hok
    dsimp only at hok
    cases hok
    have hmain : ∀ v ∈ svals, interp v (qmin svals) (qmax svals) dmin dmax =
        dmin + (v - qmin svals) * (dmax - dmin) / (qmax svals - qmin svals) :=
      fun v hv => interp_eq_linear dmin dmax (qmin_le_of_mem hv) (le_qmax_of_mem hv) hlt
    refine ⟨List.map_congr_left hmain, ?_, ?_, rfl, ?_⟩
    · intro n hn hv
      have hpix : (svals.map (fun v => interp v (qmin svals) (qmax svals) dmin dmax)).getD
          n 0 = interp (svals.getD n 0) (qmin svals) (qmax svals) dmin dmax :=
        getD_of_map _ svals n 0 0 hn
      rw [hpix, hv, interp_at_min]
    · intro n hn hv
      have hpix : (svals.map (fun v => interp v (qmin svals) (qmax svals) dmin dmax)).getD
          n 0 = interp (svals.getD n 0) (qmin svals) (qmax svals) dmin dmax :=
        getD_of_map _ svals n 0 0 hn
      rw [hpix, hv, interp_at_max _ _ hlt]
    · refine congrArg some (List.map_congr_left ?_)
      intro t ht
      have hsm : qmin svals ≤ qmax svals := le_of_lt hlt
      simp only [List.mem_cons, List.not_mem_nil, or_false] at ht
      rcases ht with rfl | rfl | rfl
      · exact interp_eq_linear _ _ le_rfl hsm hlt
      · exact interp_eq_linear _ _ (by linarith) (by linarith) hlt
      · exact interp_eq_linear _ _ hsm le_rfl hlt
  · intro adata keys byKey reduceF fmin dmin dmax uraw r hok hfm hpos
    unfold dotplot at hok
    cases hm : resolveRaw adata uraw with
    | error e => rw [hm] at hok; cases hok
    | ok araw =>
      rw [hm] at hok
      dsimp only at hok
      cases hb : getCol adata.obs byKey with
      | none => rw [hb] at hok; dsimp only at hok; cases hok
      | some byCol =>
        rw [hb] at hok
        dsimp only at hok
        cases hok
        refine ⟨rfl, List.map_congr_left ?_⟩
        intro f hf
        have h0 : 0 ≤ f := mem_fracDf_nonneg hf
        have hle : f ≤ (dotplotCore araw byCol keys reduceF fmin none dmin dmax).fractionMax :=
          le_qmax_of_mem hf
        exact interp_eq_linear _ _ (le_trans hfm h0) hle hpos

/-- Witness for C3: a concrete sized scatter call (`size='geneA'`, values 1
and 3, `dot_min=2`, `dot_max=14`) and a concrete default-range dotplot. -/
theorem C3_linear_size_mapping_witness :
    (rScSize.pixels = ([1, 3] : List ℚ).map (fun v =>
       2 + (v - qmin [1, 3]) * ((14 : ℚ) - 2) / (qmax [1, 3] - qmin [1, 3])) ∧
     rScSize.pixels.getD 0 0 = 2 ∧
     rScSize.pixels.getD 1 0 = 14 ∧
     rScSize.legend.map SizeLegend.ticks =
       some [qmin [1, 3], (qmin [1, 3] + qmax [1, 3]) / 2, qmax [1, 3]] ∧
     rScSize.legend.map SizeLegend.tickPixels =
       some ([qmin [1, 3], (qmin [1, 3] + qmax [1, 3]) / 2, qmax [1, 3]].map (fun v =>
         2 + (v - qmin [1, 3]) * ((14 : ℚ) - 2) / (qmax [1, 3] - qmin [1, 3])))) ∧
    (rDpSize.fractionMax = qmax rDpSize.fraction ∧
     rDpSize.pixels = rDpSize.fraction.map (fun f =>
       0 + (f - 0) * ((14 : ℚ) - 0) / (rDpSize.fractionMax - 0))) := by
  have h1 := C3_linear_size_mapping.1 adSize "geneA" "geneB" "geneA" none 2 14 none
    adSize.toVarView dfSize [1, 3] rScSize (by decide) (by decide) (by decide) (by decide)
    (by decide)
  have h2 := C3_linear_size_mapping.2 adSize ["geneA", "geneB"] "grp" qmean 0 0 14 none
    rDpSize (by decide) (by decide) (by decide)
  exact ⟨⟨h1.1, h1.2.1 0 (by decide) (by decide), h1.2.2.1 1 (by decide) (by decide),
    h1.2.2.2.1, h1.2.2.2.2⟩, h2⟩

/-- Claim C4: a dotplot over `k` variable keys and a grouping field with `g`
distinct values assembles exactly `k*g` cells; the cell with variable index
`i` and group index `j` sits at flat position `j*k+i`, carries grid
coordinates `(x, y) = (i, j)`, its summary is the reduction of variable `i`
over exactly the observations of group `j`, and its fraction is the number
of non-zero entries of variable `i` within group `j` divided by the size of
group `j`. -/
theorem C4_dotplot_cells (adata : AnnData) (keys : List String) (byKey : String)
    (reduceF : List ℚ → ℚ) (fmin : ℚ) (fmaxo : Option ℚ) (dmin dmax : ℚ)
    (uraw : Option Bool) (araw : VarView) (byCol : Column) (r : DotplotResult)
    (i j : Nat)
    (hm : resolveRaw adata uraw = .ok araw)
    (hb : getCol adata.obs byKey = some byCol)
    (hok : dotplot adata keys byKey reduceF fmin fmaxo dmin dmax uraw = .ok r)
    (hi : i < keys.length) (hj : j < (sortedDistinct byCol.valsAsLabels).length) :
    r.summary.length = keys.length * (sortedDistinct byCol.valsAsLabels).length ∧
    r.fraction.length = keys.length * (sortedDistinct byCol.valsAsLabels).length ∧
    r.xs.getD (j * keys.length + i) 0 = i ∧
    r.ys.getD (j * keys.length + i) 0 = j ∧
    r.summary.getD (j * keys.length + i) 0 = reduceF (cellVals araw keys byCol i j) ∧
    r.fraction.getD (j * keys.length + i) 0 =
      (((cellVals araw keys byCol i j).countP (fun v => decide (v ≠ 0)) : ℕ) : ℚ) /
        (((groupRows byCol j).length : ℕ) : ℚ) := by
  unfold dotplot at hok
  rw [hm] at hok
  dsimp only at hok
  rw [hb] at hok
  dsimp only at hok
  cases hok
  have hsum : (dotplotCore araw byCol keys reduceF fmin fmaxo dmin dmax).summary =
      ((groupIndices byCol.valsAsLabels).map
        (fun idxs => evens (aggRow (araw.subMatrix keys) reduceF keys.length idxs))).flatten :=
    rfl
  have hfra : (dotplotCore araw byCol keys reduceF fmin fmaxo dmin dmax).fraction =
      ((groupIndices byCol.valsAsLabels).map
        (fun idxs => odds (aggRow (araw.subMatrix keys) reduceF keys.length idxs))).flatten :=
    rfl
  have hxs : (dotplotCore araw byCol keys reduceF fmin fmaxo dmin dmax).xs =
      ((sortedDistinct byCol.valsAsLabels).map (fun _ => List.range keys.length)).flatten :=
    rfl
  have hys : (dotplotCore araw byCol keys reduceF fmin fmaxo dmin dmax).ys =
      ((List.range (sortedDistinct byCol.valsAsLabels).length).map
        (fun j2 => List.replicate keys.length j2)).flatten := rfl
  have hmean : ((groupIndices byCol.valsAsLabels).map
      (fun idxs => evens (aggRow (araw.subMatrix keys) reduceF keys.length idxs))) =
      ((groupIndices byCol.valsAsLabels).map
        (fun idxs => (List.range keys.length).map
          (fun i2 => reduceF (colVals (araw.subMatrix keys) idxs i2)))) :=
    List.map_congr_left (fun idxs _ => by
      unfold aggRow
      exact evens_flatMap_pair _ _ _)
  have hfracm : ((groupIndices byCol.valsAsLabels).map
      (fun idxs => odds (aggRow (araw.subMatrix keys) reduceF keys.length idxs))) =
      ((groupIndices byCol.valsAsLabels).map
        (fun idxs => (List.range keys.length).map
          (fun i2 => nonZeroFrac (colVals (araw.subMatrix keys) idxs i2)))) :=
    List.map_congr_left (fun idxs _ => by
      unfold aggRow
      exact odds_flatMap_pair _ _ _)
  have hglen : (groupIndices byCol.valsAsLabels).length =
      (sortedDistinct byCol.valsAsLabels).length := by
    unfold groupIndices
    simp
  have hjg : j < (groupIndices byCol.valsAsLabels).length := by
    rw [hglen]
    exact hj
  have hrow1 : ∀ row ∈ (groupIndices byCol.valsAsLabels).map
      (fun idxs => (List.range keys.length).map
        (fun i2 => reduceF (colVals (araw.subMatrix keys) idxs i2))),
      row.length = keys.length := by
    intro row hrow
    rcases List.mem_map.mp hrow with ⟨idxs, _, hroweq⟩
    rw [← hroweq]
    simp
  have hrow2 : ∀ row ∈ (groupIndices byCol.valsAsLabels).map
      (fun idxs => (List.range keys.length).map
        (fun i2 => nonZeroFrac (colVals (araw.subMatrix keys) idxs i2))),
      row.length = keys.length := by
    intro row hrow
    rcases List.mem_map.mp hrow with ⟨idxs, _, hroweq⟩
    rw [← hroweq]
    simp
  have hrow3 : ∀ row ∈ (sortedDistinct byCol.valsAsLabels).map
      (fun _ => List.range keys.length), row.length = keys.length := by
    intro row hrow
    rcases List.mem_map.mp hrow with ⟨g2, _, hroweq⟩
    rw [← hroweq]
    simp
  have hrow4 : ∀ row ∈ (List.range (sortedDistinct byCol.valsAsLabels).length).map
      (fun j2 => List.replicate keys.length j2), row.length = keys.length := by
    intro row hrow
    rcases List.mem_map.mp hrow with ⟨j2, _, hroweq⟩
    rw [← hroweq]
    simp
  have hgidx : (groupIndices byCol.valsAsLabels).getD j [] = groupRows byCol j := by
    unfold groupIndices
    rw [getD_of_map _ _ _ _ (GLabel.str "") hj]
    rfl
  refine ⟨?_, ?_, ?_, ?_, ?_, ?_⟩
  · rw [hsum, hmean, flatten_length_const keys.length _ hrow1, List.length_map, hglen]
    exact Nat.mul_comm _ _
  · rw [hfra, hfracm, flatten_length_const keys.length _ hrow2, List.length_map, hglen]
    exact Nat.mul_comm _ _
  · rw [hxs, flatten_getD_const 0 _ hrow3 j i (by simpa using hj) hi,
      getD_of_map _ _ _ _ (GLabel.str "") hj]
    exact getD_of_range 0 hi
  · rw [hys, flatten_getD_const 0 _ hrow4 j i (by simpa using hj) hi,
      getD_of_map _ _ _ _ 0 (by simpa using hj), getD_of_range 0 hj]
    exact getD_of_replicate _ 0 hi
  · rw [hsum, hmean, flatten_getD_const 0 _ hrow1 j i (by simpa [hglen] using hj) hi,
      getD_of_map _ _ _ _ ([] : List Nat) hjg]
    rw [getD_of_map _ _ _ _ 0 (by simpa using hi)]
    rw [getD_of_range 0 hi, hgidx]
    rfl
  · rw [hfra, hfracm, flatten_getD_const 0 _ hrow2 j i (by simpa [hglen] using hj) hi,
      getD_of_map _ _ _ _ ([] : List Nat) hjg]
    rw [getD_of_map _ _ _ _ 0 (by simpa using hi)]
    rw [getD_of_range 0 hi, hgidx]
    unfold nonZeroFrac
    rw [show colVals (araw.subMatrix keys) (groupRows byCol j) i =
      cellVals araw keys byCol i j from rfl]
    rw [show (cellVals araw keys byCol i j).length = (groupRows byCol j).length from
      List.length_map _ _]

/-- Witness for C4: `dotplot(adCells, ['geneA','geneB'], 'grp')` — two
variables, two groups (group `a` = rows 0 and 2, group `b` = row 1), cell
(variable 1, group 0) at flat position 1. -/
theorem C4_dotplot_cells_witness :
    rDpCells.summary.length =
      (["geneA", "geneB"] : List String).length *
        (sortedDistinct (Column.cat ["a", "b", "a"]).valsAsLabels).length ∧
    rDpCells.fraction.length =
      (["geneA", "geneB"] : List String).length *
        (sortedDistinct (Column.cat ["a", "b", "a"]).valsAsLabels).length ∧
    rDpCells.xs.getD (0 * (["geneA", "geneB"] : List String).length + 1) 0 = 1 ∧
    rDpCells.ys.getD (0 * (["geneA", "geneB"] : List String).length + 1) 0 = 0 ∧
    rDpCells.summary.getD (0 * (["geneA", "geneB"] : List String).length + 1) 0 =
      qmean (cellVals adCells.toVarView ["geneA", "geneB"] (Column.cat ["a", "b", "a"]) 1 0) ∧
    rDpCells.fraction.getD (0 * (["geneA", "geneB"] : List String).length + 1) 0 =
      (((cellVals adCells.toVarView ["geneA", "geneB"] (Column.cat ["a", "b", "a"])
          1 0).countP (fun v => decide (v ≠ 0)) : ℕ) : ℚ) /
        (((groupRows (Column.cat ["a", "b", "a"]) 0).length : ℕ) : ℚ) :=
  C4_dotplot_cells adCells ["geneA", "geneB"] "grp" qmean 0 none 0 14 none
    adCells.toVarView (Column.cat ["a", "b", "a"]) rDpCells 1 0 (by decide) (by decide)
    (by decide) (by decide) (by decide)
